import Mathlib

/-!
A Lean model of the permission-resolution and key-custody core of the Umbra
expense-tracking backend (FastAPI + SQLAlchemy).  Python functions from
src/backend/app/utils/permissions.py and the organization / invitation routers
are translated into pure Lean functions over an explicit database state.

Translation conventions:
  - UUID columns become Nat identifiers; datetime columns become Nat
    timestamps (seconds); a fresh uuid4 or a random token is passed in as an
    explicit argument.
  - SQLAlchemy query(...).filter(...).first() becomes List.find? with the same
    predicate; db.add followed by db.commit becomes a list append; mutating a
    fetched ORM row becomes replacing that row in the list.
  - raise HTTPException becomes an Except.error carrying an ApiError with the
    matching HTTP status kind and the same detail string (one detail string is
    reworded to drop a possessive).
  - Surrogate id columns that no modelled code path reads (membership ids,
    audit ids), created_at / updated_at bookkeeping timestamps, audit details,
    request provenance and the best-effort invitation email are projected
    away; no modelled branch inspects them.
  - A commit or an audit insert performed by the database can fail at run
    time; those failure points are modelled by explicit Boolean arguments
    (commitFails, auditFails) on the operations that have them, so that the
    rollback behaviour of the try / except blocks is observable.
-/

namespace Umbra

/-- Kinds of errors surfaced by the backend, mirroring the HTTP statuses used
by the source: 404, 403, 400, 500 and the pydantic validation failure. -/
inductive ApiError where
  | notFound (detail : String)
  | forbidden (detail : String)
  | badRequest (detail : String)
  | internalError (detail : String)
  | validationError (detail : String)
deriving DecidableEq

/-- A row of the users table: only the columns the modelled code paths read. -/
structure UserRec where
  id : Nat
  email : String
deriving DecidableEq

/-- A row of the organizations table (models.py, class Organization). -/
structure Organization where
  id : Nat
  name : String
  createdBy : Nat
  deletedAt : Option Nat
deriving DecidableEq

/-- A row of the organization_members table (models.py, class
OrganizationMember).  role is the raw string column; wrappedOrgKey is the
wrapped_org_key text column. -/
structure OrganizationMember where
  organizationId : Nat
  userId : Nat
  role : String
  wrappedOrgKey : String
  invitedBy : Option Nat
deriving DecidableEq

/-- A row of the organization_invitations table (models.py, class
OrganizationInvitation). -/
structure OrganizationInvitation where
  organizationId : Nat
  email : String
  role : String
  wrappedOrgKey : String
  invitedBy : Nat
  token : String
  message : Option String
  expiresAt : Nat
  createdAt : Nat
  acceptedAt : Option Nat
  rejectedAt : Option Nat
deriving DecidableEq

/-- A row of the accounts table (models.py, class Account): the columns read
by the permission resolver and the key-rotation loop. -/
structure Account where
  id : Nat
  userId : Nat
  organizationId : Option Nat
  defaultPermission : String
  encryptedDek : Option String
  deletedAt : Option Nat
deriving DecidableEq

/-- A row of the account_permissions table (models.py, class
AccountPermission). -/
structure AccountPermission where
  accountId : Nat
  userId : Nat
  permission : String
deriving DecidableEq

/-- A row of the audit_logs table: actor, organization and action tag.  The
write-only diagnostic columns (resource type and id, details, ip, user agent)
are projected away; no modelled branch reads them back. -/
structure AuditRecord where
  userId : Nat
  organizationId : Nat
  action : String
deriving DecidableEq

/-- The committed database state: one list per table. -/
structure Db where
  users : List UserRec
  organizations : List Organization
  members : List OrganizationMember
  invitations : List OrganizationInvitation
  accounts : List Account
  accountPermissions : List AccountPermission
  auditLogs : List AuditRecord
deriving DecidableEq

/-- permissions.py ROLE_HIERARCHY dict; lookups use .get(role, 0), so an
unknown role string maps to 0. -/
def ROLE_HIERARCHY (role : String) : Nat :=
  if role = "owner" then 4
  else if role = "admin" then 3
  else if role = "member" then 2
  else if role = "viewer" then 1
  else 0

/-- permissions.py PERMISSION_HIERARCHY dict; lookups use .get(p, 0). -/
def PERMISSION_HIERARCHY (permission : String) : Nat :=
  if permission = "full" then 3
  else if permission = "edit" then 2
  else if permission = "view" then 1
  else 0

/-- permissions.py check_org_permission: organization lookup (404 on absent or
soft-deleted), then membership lookup (403), then the optional minimum-role
comparison through ROLE_HIERARCHY (403). -/
def check_org_permission (db : Db) (userId : Nat) (orgId : Nat)
    (requiredRole : Option String) : Except ApiError OrganizationMember :=
  match db.organizations.find? (fun o => o.id == orgId && o.deletedAt == none) with
  | none => .error (.notFound "Organization not found")
  | some _ =>
    match db.members.find? (fun m => m.organizationId == orgId && m.userId == userId) with
    | none => .error (.forbidden "You are not a member of this organization")
    | some member =>
      match requiredRole with
      | none => .ok member
      | some r =>
        if ROLE_HIERARCHY member.role < ROLE_HIERARCHY r then
          .error (.forbidden ("Insufficient permissions. Required role: " ++ r))
        else
          .ok member

/-- permissions.py check_org_owner. -/
def check_org_owner (db : Db) (userId : Nat) (orgId : Nat) :
    Except ApiError OrganizationMember :=
  check_org_permission db userId orgId (some "owner")

/-- permissions.py check_org_admin. -/
def check_org_admin (db : Db) (userId : Nat) (orgId : Nat) :
    Except ApiError OrganizationMember :=
  check_org_permission db userId orgId (some "admin")

/-- permissions.py check_account_permission: account lookup, personal-account
short circuit, membership requirement, owner/admin bypass, explicit
per-account permission, account default permission, viewer floor, deny. -/
def check_account_permission (db : Db) (userId : Nat) (accountId : Nat)
    (requiredPermission : String) : Except ApiError Bool :=
  match db.accounts.find? (fun a => a.id == accountId && a.deletedAt == none) with
  | none => .error (.notFound "Account not found")
  | some account =>
    match account.organizationId with
    | none =>
      if account.userId ≠ userId then .error (.forbidden "Access denied to this account")
      else .ok true
    | some orgId =>
      match db.members.find? (fun m => m.organizationId == orgId && m.userId == userId) with
      | none => .error (.forbidden "You are not a member of this accounts organization")
      | some member =>
        if member.role == "owner" || member.role == "admin" then .ok true
        else if (match db.accountPermissions.find?
                    (fun p => p.accountId == accountId && p.userId == userId) with
                 | some accountPerm =>
                   decide (PERMISSION_HIERARCHY requiredPermission ≤ PERMISSION_HIERARCHY accountPerm.permission)
                 | none => false) = true then .ok true
        else if account.defaultPermission ≠ "" ∧
                PERMISSION_HIERARCHY requiredPermission ≤ PERMISSION_HIERARCHY account.defaultPermission then
          .ok true
        else if member.role == "viewer" && requiredPermission == "view" then .ok true
        else .error (.forbidden ("Insufficient account permissions. Required: " ++ requiredPermission))

/-- permissions.py can_manage_member: owners manage everyone but a different
owner, admins manage neither owners nor admins, everyone else manages
nobody. -/
def can_manage_member (manager target : OrganizationMember) : Except ApiError Bool :=
  if manager.role == "owner" then
    if target.role == "owner" && manager.userId != target.userId then
      .error (.forbidden "Cannot modify another owner")
    else .ok true
  else if manager.role == "admin" then
    if target.role == "owner" || target.role == "admin" then
      .error (.forbidden "Admins cannot modify owners or other admins")
    else .ok true
  else .error (.forbidden "Insufficient permissions to manage members")

/-- permissions.py log_audit: append one audit row (db.add plus db.commit). -/
def log_audit (db : Db) (userId : Nat) (organizationId : Nat) (action : String) : Db :=
  { db with auditLogs := db.auditLogs ++ [⟨userId, organizationId, action⟩] }

/-- permissions.py verify_invitation_token: token lookup, then accepted_at,
then rejected_at, then expiry, in that order. -/
def verify_invitation_token (db : Db) (now : Nat) (token : String) :
    Except ApiError OrganizationInvitation :=
  match db.invitations.find? (fun i => i.token == token) with
  | none => .error (.notFound "Invitation not found")
  | some invitation =>
    if invitation.acceptedAt.isSome then .error (.badRequest "Invitation already accepted")
    else if invitation.rejectedAt.isSome then .error (.badRequest "Invitation was rejected")
    else if invitation.expiresAt < now then .error (.badRequest "Invitation has expired")
    else .ok invitation

/-- invitations.py create_invitation, together with the pydantic validation of
InvitationCreate that runs before the handler: RoleEnum parsing rejects a
string outside the four roles, and the role_not_owner validator rejects owner.
The random token from secrets.token_urlsafe(32) and the current time are
passed in as arguments; timedelta(days=7) becomes 7 * 24 * 60 * 60 seconds.
The best-effort invitation email is a side effect outside the database and is
not modelled.  auditFails models the audit insert of log_audit raising after
the invitation has already been committed (the handler has no try / except, so
the exception escapes as a server error). -/
def create_invitation (db : Db) (now : Nat) (freshToken : String)
    (currentUser : UserRec) (orgId : Nat) (email : String) (role : String)
    (wrappedOrgKey : String) (message : Option String) (auditFails : Bool) :
    Except ApiError OrganizationInvitation × Db :=
  if ¬(role = "owner" ∨ role = "admin" ∨ role = "member" ∨ role = "viewer") then
    (.error (.validationError "Invalid role"), db)
  else if role = "owner" then
    (.error (.validationError "Cannot invite as owner. Use transfer ownership instead."), db)
  else
    match check_org_admin db currentUser.id orgId with
    | .error e => (.error e, db)
    | .ok _ =>
      match db.organizations.find? (fun o => o.id == orgId && o.deletedAt == none) with
      | none => (.error (.notFound "Organization not found"), db)
      | some _ =>
        let existingMember : Option OrganizationMember :=
          match db.users.find? (fun u => u.email == email) with
          | some invitee =>
            db.members.find? (fun m => m.organizationId == orgId && m.userId == invitee.id)
          | none => none
        if existingMember.isSome then
          (.error (.badRequest "User is already a member of this organization"), db)
        else if (db.invitations.find? (fun i =>
                   i.organizationId == orgId && i.email == email &&
                   i.acceptedAt == none && i.rejectedAt == none &&
                   decide (now < i.expiresAt))).isSome then
          (.error (.badRequest "Active invitation already exists for this email"), db)
        else
          let newInvitation : OrganizationInvitation :=
            ⟨orgId, email, role, wrappedOrgKey, currentUser.id, freshToken,
             message, now + 7 * 24 * 60 * 60, now, none, none⟩
          let db1 := { db with invitations := db.invitations ++ [newInvitation] }
          if auditFails then (.error (.internalError "audit write failed"), db1)
          else (.ok newInvitation, log_audit db1 currentUser.id orgId "member_invited")

/-- invitations.py accept_invitation: verify the token, bind the invitation to
the authenticated email, refuse if already a member, else insert one
membership carrying the invitation role and the wrapped key supplied in the
request body, and set accepted_at on the invitation row (token is unique, so
the update-by-token touches exactly the fetched row). -/
def accept_invitation (db : Db) (now : Nat) (currentUser : UserRec)
    (token : String) (wrappedOrgKey : String) :
    Except ApiError OrganizationInvitation × Db :=
  match verify_invitation_token db now token with
  | .error e => (.error e, db)
  | .ok invitation =>
    if invitation.email ≠ currentUser.email then
      (.error (.forbidden "This invitation is for a different email address"), db)
    else
      match db.members.find? (fun m =>
              m.organizationId == invitation.organizationId && m.userId == currentUser.id) with
      | some _ => (.error (.badRequest "You are already a member of this organization"), db)
      | none =>
        let newMember : OrganizationMember :=
          ⟨invitation.organizationId, currentUser.id, invitation.role,
           wrappedOrgKey, some invitation.invitedBy⟩
        let db1 := { db with
          members := db.members ++ [newMember],
          invitations := db.invitations.map (fun i =>
            if i.token == token then { i with acceptedAt := some now } else i) }
        (.ok { invitation with acceptedAt := some now },
         log_audit db1 currentUser.id invitation.organizationId "member_joined")

/-- One entry of KeyRotationRequest.member_keys (schemas.py
MemberKeyRotation). -/
structure MemberKeyRotation where
  userId : Nat
  wrappedOrgKey : String
deriving DecidableEq

/-- Overwrite wrapped_org_key on the first membership row matching
(organization_id, user_id): the ORM mutation of the row returned by
.first(). -/
def updateFirstMemberKey (orgId userId : Nat) (key : String) :
    List OrganizationMember → List OrganizationMember
  | [] => []
  | m :: rest =>
    if m.organizationId == orgId && m.userId == userId then
      { m with wrappedOrgKey := key } :: rest
    else m :: updateFirstMemberKey orgId userId key rest

/-- Overwrite encrypted_dek on the first account row matching the id, the
organization and the soft-delete filter: the ORM mutation of the row returned
by .first(). -/
def updateFirstAccountDek (orgId accountId : Nat) (dek : String) :
    List Account → List Account
  | [] => []
  | a :: rest =>
    if a.id == accountId && a.organizationId == some orgId && a.deletedAt == none then
      { a with encryptedDek := some dek } :: rest
    else a :: updateFirstAccountDek orgId accountId dek rest

/-- The member loop of rotate_organization_keys: for each supplied update,
look the membership up and, only when it exists, overwrite its key and count
it; a miss is skipped silently. -/
def rotateMembersLoop (orgId : Nat) :
    List OrganizationMember × Nat → List MemberKeyRotation → List OrganizationMember × Nat
  | st, [] => st
  | (ms, n), mk :: rest =>
    if (ms.find? (fun m => m.organizationId == orgId && m.userId == mk.userId)).isSome then
      rotateMembersLoop orgId (updateFirstMemberKey orgId mk.userId mk.wrappedOrgKey ms, n + 1) rest
    else
      rotateMembersLoop orgId (ms, n) rest

/-- The account loop of rotate_organization_keys: same skip-on-miss policy,
scoped to non-deleted accounts of this organization. -/
def rotateAccountsLoop (orgId : Nat) :
    List Account × Nat → List (Nat × String) → List Account × Nat
  | st, [] => st
  | (accs, n), (accountId, dek) :: rest =>
    if (accs.find? (fun a =>
          a.id == accountId && a.organizationId == some orgId && a.deletedAt == none)).isSome then
      rotateAccountsLoop orgId (updateFirstAccountDek orgId accountId dek accs, n + 1) rest
    else
      rotateAccountsLoop orgId (accs, n) rest

/-- organizations.py rotate_organization_keys: owner check, organization
lookup, both update loops inside a try block, one commit, then log_audit and
the response.  commitFails models the commit raising (the except block rolls
everything back, so the database is unchanged); auditFails models the audit
insert raising after the commit (the except block catches it and rolls back,
but the key updates are already committed and persist). -/
def rotate_organization_keys (db : Db) (currentUserId orgId : Nat)
    (memberKeys : List MemberKeyRotation) (accountDeks : List (Nat × String))
    (commitFails auditFails : Bool) : Except ApiError (Nat × Nat) × Db :=
  match check_org_owner db currentUserId orgId with
  | .error e => (.error e, db)
  | .ok _ =>
    match db.organizations.find? (fun o => o.id == orgId && o.deletedAt == none) with
    | none => (.error (.notFound "Organization not found"), db)
    | some _ =>
      let mloop := rotateMembersLoop orgId (db.members, 0) memberKeys
      let aloop := rotateAccountsLoop orgId (db.accounts, 0) accountDeks
      if commitFails then (.error (.internalError "Key rotation failed"), db)
      else
        let db1 := { db with members := mloop.1, accounts := aloop.1 }
        if auditFails then (.error (.internalError "Key rotation failed"), db1)
        else (.ok (aloop.2, mloop.2), log_audit db1 currentUserId orgId "keys_rotated")

/-- organizations.py create_organization: insert the organization and one
membership with role owner for the creator, carrying the wrapped org key from
the request, in one commit, then log audit.  The fresh uuid4 is passed in as
orgId; its freshness is modelled by the identifier-collision guard, under
which the operation is a no-op (a uuid4 collision cannot occur). -/
def create_organization (db : Db) (orgId : Nat) (currentUserId : Nat)
    (name wrappedOrgKey : String) : Db :=
  if db.organizations.any (fun o => o.id == orgId) then db
  else
    let db1 := { db with
      organizations := db.organizations ++ [⟨orgId, name, currentUserId, none⟩],
      members := db.members ++
        [⟨orgId, currentUserId, "owner", wrappedOrgKey, some currentUserId⟩] }
    log_audit db1 currentUserId orgId "org_created"

/-- organizations.py remove_member: admin check, target lookup, refusal when
the target role is owner, can_manage_member check, then delete the fetched row
and log audit. -/
def remove_member (db : Db) (currentUserId orgId targetUserId : Nat) :
    Except ApiError Unit × Db :=
  match check_org_admin db currentUserId orgId with
  | .error e => (.error e, db)
  | .ok manager =>
    match db.members.find? (fun m => m.organizationId == orgId && m.userId == targetUserId) with
    | none => (.error (.notFound "Member not found"), db)
    | some target =>
      if target.role == "owner" then
        (.error (.badRequest "Cannot remove owner. Transfer ownership first."), db)
      else
        match can_manage_member manager target with
        | .error e => (.error e, db)
        | .ok _ =>
          let db1 := { db with
            members := db.members.eraseP (fun m =>
              m.organizationId == orgId && m.userId == targetUserId) }
          (.ok (), log_audit db1 currentUserId orgId "member_removed")

/-- The row mutation of transfer_ownership: the current owner row becomes
admin, the designated member row becomes owner, every other row is
untouched. -/
def transferRole (orgId currentUserId newOwnerId : Nat)
    (m : OrganizationMember) : OrganizationMember :=
  if m.organizationId == orgId && m.userId == currentUserId then { m with role := "admin" }
  else if m.organizationId == orgId && m.userId == newOwnerId then { m with role := "owner" }
  else m

/-- organizations.py transfer_ownership: owner check, lookup of the designated
member, refusal of a self-transfer, then demote the current owner to admin and
promote the new owner in the same commit, then log audit.  Membership rows are
unique per (organization_id, user_id), so the map touches exactly the two
fetched rows.  auditFails models the audit insert raising after the commit:
the exception escapes as a server error while the role swap persists. -/
def transfer_ownership (db : Db) (currentUserId orgId newOwnerId : Nat)
    (auditFails : Bool) : Except ApiError Unit × Db :=
  match check_org_owner db currentUserId orgId with
  | .error e => (.error e, db)
  | .ok _ =>
    match db.members.find? (fun m => m.organizationId == orgId && m.userId == newOwnerId) with
    | none => (.error (.notFound "New owner must be an existing member"), db)
    | some newOwner =>
      if newOwner.userId == currentUserId then
        (.error (.badRequest "You are already the owner"), db)
      else
        let db1 := { db with
          members := db.members.map (transferRole orgId currentUserId newOwnerId) }
        if auditFails then (.error (.internalError "audit write failed"), db1)
        else (.ok (), log_audit db1 currentUserId orgId "ownership_transferred")

/-- One operation of the single-owner property test: create an organization,
transfer its ownership, or remove a member. -/
inductive OrgOp where
  | createOrg (orgId : Nat) (creatorId : Nat) (name : String) (wrappedOrgKey : String)
  | transferOwner (orgId : Nat) (actorId : Nat) (newOwnerId : Nat)
  | removeMember (orgId : Nat) (actorId : Nat) (targetUserId : Nat)
deriving DecidableEq

/-- Apply one operation to the committed state; a failed operation leaves the
state unchanged. -/
def applyOp (db : Db) : OrgOp → Db
  | .createOrg orgId creatorId name key => create_organization db orgId creatorId name key
  | .transferOwner orgId actorId newOwnerId =>
    (transfer_ownership db actorId orgId newOwnerId false).2
  | .removeMember orgId actorId targetUserId =>
    (remove_member db actorId orgId targetUserId).2

/-- Run a sequence of operations from a starting state. -/
def runOps (ops : List OrgOp) (db : Db) : Db := ops.foldl applyOp db

/-- The empty committed state: a fresh deployment. -/
def emptyDb : Db := ⟨[], [], [], [], [], [], []⟩

/-- Number of membership rows of an organization whose role is owner. -/
def ownerCount (members : List OrganizationMember) (orgId : Nat) : Nat :=
  members.countP (fun m => m.organizationId == orgId && m.role == "owner")

/-- The database key of a membership row: (organization_id, user_id), unique
by the accept-path pre-check and the data model. -/
def memberKeyOf (m : OrganizationMember) : Nat × Nat := (m.organizationId, m.userId)

/-- Membership rows are pairwise distinct on (organization_id, user_id). -/
def MembersUnique (ms : List OrganizationMember) : Prop :=
  ms.Pairwise (fun a b => ¬ memberKeyOf a = memberKeyOf b)

/-- The state invariant of the membership registry: every organization has
exactly one owner row, membership keys are unique, and every membership row
points at an existing organization row. -/
def DbInv (db : Db) : Prop :=
  (∀ o ∈ db.organizations, ownerCount db.members o.id = 1) ∧
  MembersUnique db.members ∧
  (∀ m ∈ db.members, ∃ o ∈ db.organizations, o.id = m.organizationId)

/-- The effect, on an operation result, of the audit insert raising after the
mutation commit: the result becomes a server error with the given message and
the state keeps everything except the audit row that was never written. -/
def auditShift {α : Type} (message : String) (auditLogs0 : List AuditRecord) :
    Except ApiError α × Db → Except ApiError α × Db
  | (.ok _, d2) => (.error (.internalError message), { d2 with auditLogs := auditLogs0 })
  | (.error e, d2) => (.error e, d2)

/-! Concrete sample data used to evaluate the statements on closed inputs. -/

def aliceU : UserRec := ⟨10, "alice@example.com"⟩

def bobU : UserRec := ⟨20, "bob@example.com"⟩

def org1 : Organization := ⟨1, "family", 10, none⟩

def mOwner : OrganizationMember := ⟨1, 10, "owner", "wrapped-10", some 10⟩

def mAdmin : OrganizationMember := ⟨1, 11, "admin", "wrapped-11", some 10⟩

def mMember : OrganizationMember := ⟨1, 12, "member", "wrapped-12", some 10⟩

def mViewer : OrganizationMember := ⟨1, 13, "viewer", "wrapped-13", some 10⟩

def acc100 : Account := ⟨100, 10, some 1, "view", some "dek-100", none⟩

def ap1 : AccountPermission := ⟨100, 12, "edit"⟩

def inv1 : OrganizationInvitation :=
  ⟨1, "bob@example.com", "member", "rsa-wrapped", 10, "tok1", none, 1000, 0, none, none⟩

def sampleDb : Db :=
  ⟨[aliceU, bobU], [org1], [mOwner, mAdmin, mMember, mViewer], [inv1], [acc100], [ap1], []⟩

end Umbra

namespace Umbra

/-! Theorems settling the specification claims, with closed witnesses. -/

/-- C8: the role comparison used by membership checks grants exactly when
ROLE_HIERARCHY of the actual role is at least ROLE_HIERARCHY of the required
role, over the order viewer(1) < member(2) < admin(3) < owner(4); any role
string outside the four known roles maps to level 0 and is insufficient for
every known required role; and the comparison is reflexive and transitive. -/
theorem role_comparison_spec :
    (ROLE_HIERARCHY "viewer" = 1 ∧ ROLE_HIERARCHY "member" = 2 ∧
     ROLE_HIERARCHY "admin" = 3 ∧ ROLE_HIERARCHY "owner" = 4) ∧
    (∀ (db : Db) (userId orgId : Nat) (r : String)
       (org : Organization) (member : OrganizationMember),
      db.organizations.find? (fun o => o.id == orgId && o.deletedAt == none) = some org →
      db.members.find? (fun m => m.organizationId == orgId && m.userId == userId) = some member →
      (check_org_permission db userId orgId (some r) = .ok member ↔
        ROLE_HIERARCHY r ≤ ROLE_HIERARCHY member.role)) ∧
    (∀ role : String,
      role ≠ "owner" → role ≠ "admin" → role ≠ "member" → role ≠ "viewer" →
      ROLE_HIERARCHY role = 0 ∧
      ∀ required : String,
        (required = "owner" ∨ required = "admin" ∨
         required = "member" ∨ required = "viewer") →
        ¬ ROLE_HIERARCHY required ≤ ROLE_HIERARCHY role) ∧
    (∀ r : String, ROLE_HIERARCHY r ≤ ROLE_HIERARCHY r) ∧
    (∀ a b c : String,
      ROLE_HIERARCHY c ≤ ROLE_HIERARCHY b → ROLE_HIERARCHY b ≤ ROLE_HIERARCHY a →
      ROLE_HIERARCHY c ≤ ROLE_HIERARCHY a) := by
  refine ⟨by decide, ?_, ?_, fun r => Nat.le_refl _,
    fun a b c h1 h2 => Nat.le_trans h1 h2⟩
  · intro db userId orgId r org member horg hmem
    unfold check_org_permission
    rw [horg, hmem]
    by_cases hlt : ROLE_HIERARCHY member.role < ROLE_HIERARCHY r
    · simp only [if_pos hlt]
      exact iff_of_false (by simp) (by omega)
    · simp only [if_neg hlt]
      exact iff_of_true (by trivial) (by omega)
  · intro role h1 h2 h3 h4
    have hz : ROLE_HIERARCHY role = 0 := by
      unfold ROLE_HIERARCHY
      rw [if_neg h1, if_neg h2, if_neg h3, if_neg h4]
    refine ⟨hz, ?_⟩
    intro required hreq
    rcases hreq with h | h | h | h <;> subst h <;> rw [hz] <;> decide

/-- Witness for C8: evaluating the middle conjunct on the sample database,
where user 11 holds role admin in organization 1. -/
theorem role_comparison_spec_witness :
    check_org_permission sampleDb 11 1 (some "admin") = .ok mAdmin :=
  (role_comparison_spec.2.1 sampleDb 11 1 "admin" org1 mAdmin rfl rfl).mpr (by decide)

/-- C9: check_org_permission resolves the organization before any membership
check: an absent or soft-deleted organization yields NotFound regardless of
membership; only then is membership checked, and only then the minimum-role
requirement. -/
theorem org_lookup_before_membership :
    ∀ (db : Db) (userId orgId : Nat) (requiredRole : Option String),
    (db.organizations.find? (fun o => o.id == orgId && o.deletedAt == none) = none →
      check_org_permission db userId orgId requiredRole =
        .error (.notFound "Organization not found")) ∧
    (∀ org,
      db.organizations.find? (fun o => o.id == orgId && o.deletedAt == none) = some org →
      (db.members.find? (fun m => m.organizationId == orgId && m.userId == userId) = none →
        check_org_permission db userId orgId requiredRole =
          .error (.forbidden "You are not a member of this organization")) ∧
      (∀ member,
        db.members.find? (fun m => m.organizationId == orgId && m.userId == userId) =
          some member →
        (requiredRole = none → check_org_permission db userId orgId requiredRole = .ok member) ∧
        (∀ r, requiredRole = some r →
          (ROLE_HIERARCHY member.role < ROLE_HIERARCHY r →
            check_org_permission db userId orgId requiredRole =
              .error (.forbidden ("Insufficient permissions. Required role: " ++ r))) ∧
          (¬ ROLE_HIERARCHY member.role < ROLE_HIERARCHY r →
            check_org_permission db userId orgId requiredRole = .ok member)))) := by
  intro db userId orgId requiredRole
  constructor
  · intro hnone
    unfold check_org_permission
    rw [hnone]
  · intro org horg
    constructor
    · intro hmem
      unfold check_org_permission
      rw [horg, hmem]
    · intro member hmem
      constructor
      · intro hr
        subst hr
        unfold check_org_permission
        rw [horg, hmem]
      · intro r hr
        subst hr
        constructor
        · intro hlt
          unfold check_org_permission
          rw [horg, hmem]
          simp only [if_pos hlt]
        · intro hge
          unfold check_org_permission
          rw [horg, hmem]
          simp only [if_neg hge]

/-- Witness for C9: on the sample database with organization 2, which does not
exist, the result is NotFound even though user 10 has a membership row. -/
theorem org_lookup_before_membership_witness :
    check_org_permission sampleDb 10 2 none = .error (.notFound "Organization not found") :=
  (org_lookup_before_membership sampleDb 10 2 none).1 rfl

/-- C10: can_manage_member lets an owner manage every member except a
different owner (an owner may manage themself); an admin fails exactly on
owner or admin targets, themself included; and a manager whose role is
member, viewer or any unknown string always fails. -/
theorem can_manage_member_spec :
    ∀ manager target : OrganizationMember,
    manager.organizationId = target.organizationId →
    (manager.role = "owner" →
      ((can_manage_member manager target = .ok true) ↔
        ¬(target.role = "owner" ∧ manager.userId ≠ target.userId)) ∧
      (target.role = "owner" → manager.userId ≠ target.userId →
        can_manage_member manager target = .error (.forbidden "Cannot modify another owner"))) ∧
    (manager.role = "admin" →
      ((can_manage_member manager target = .ok true) ↔
        ¬(target.role = "owner" ∨ target.role = "admin")) ∧
      (target.role = "owner" ∨ target.role = "admin" →
        can_manage_member manager target =
          .error (.forbidden "Admins cannot modify owners or other admins"))) ∧
    (manager.role ≠ "owner" → manager.role ≠ "admin" →
      can_manage_member manager target =
        .error (.forbidden "Insufficient permissions to manage members")) := by
  intro manager target _
  refine ⟨?_, ?_, ?_⟩
  · intro hrole
    constructor
    · by_cases howner : target.role = "owner"
      · by_cases hid : manager.userId = target.userId
        · simp [can_manage_member, beq_iff_eq, hrole, howner, hid]
        · simp [can_manage_member, beq_iff_eq, hrole, howner, hid]
      · simp [can_manage_member, beq_iff_eq, hrole, howner]
    · intro howner hid
      simp [can_manage_member, beq_iff_eq, hrole, howner, hid]
  · intro hrole
    constructor
    · by_cases howner : target.role = "owner"
      · simp [can_manage_member, beq_iff_eq, hrole, howner]
      · by_cases hadmin : target.role = "admin"
        · simp [can_manage_member, beq_iff_eq, hrole, howner, hadmin]
        · simp [can_manage_member, beq_iff_eq, hrole, howner, hadmin]
    · intro htarget
      rcases htarget with howner | hadmin
      · simp [can_manage_member, beq_iff_eq, hrole, howner]
      · simp [can_manage_member, beq_iff_eq, hrole, hadmin]
  · intro h1 h2
    simp [can_manage_member, beq_iff_eq, h1, h2]

/-- Witness for C10: in the sample data the admin of organization 1 may manage
the plain member, and may not manage the owner. -/
theorem can_manage_member_spec_witness :
    can_manage_member mAdmin mMember = .ok true ∧
    can_manage_member mAdmin mOwner =
      .error (.forbidden "Admins cannot modify owners or other admins") :=
  ⟨((can_manage_member_spec mAdmin mMember rfl).2.1 rfl).1.mpr (by decide),
   ((can_manage_member_spec mAdmin mOwner rfl).2.1 rfl).2 (by decide)⟩

/-- C3: verify_invitation_token checks existence, then accepted_at, then
rejected_at, then expiry, in that order; an accepted invitation past its
expiry is reported as already accepted, never expired; and once accepted_at or
rejected_at is set the verification fails at every later time. -/
theorem verify_token_check_order :
    ∀ (db : Db) (now : Nat) (token : String),
    (db.invitations.find? (fun i => i.token == token) = none →
      verify_invitation_token db now token = .error (.notFound "Invitation not found")) ∧
    (∀ inv, db.invitations.find? (fun i => i.token == token) = some inv →
      (inv.acceptedAt.isSome →
        verify_invitation_token db now token = .error (.badRequest "Invitation already accepted")) ∧
      (inv.acceptedAt = none → inv.rejectedAt.isSome →
        verify_invitation_token db now token = .error (.badRequest "Invitation was rejected")) ∧
      (inv.acceptedAt = none → inv.rejectedAt = none → inv.expiresAt < now →
        verify_invitation_token db now token = .error (.badRequest "Invitation has expired")) ∧
      (inv.acceptedAt = none → inv.rejectedAt = none → ¬ inv.expiresAt < now →
        verify_invitation_token db now token = .ok inv) ∧
      ((inv.acceptedAt.isSome ∨ inv.rejectedAt.isSome) →
        ∀ (later : Nat) (i2 : OrganizationInvitation),
          verify_invitation_token db later token ≠ .ok i2)) := by
  intro db now token
  constructor
  · intro hnone
    unfold verify_invitation_token
    rw [hnone]
  · intro inv hinv
    have haccept : inv.acceptedAt.isSome →
        verify_invitation_token db now token =
          .error (.badRequest "Invitation already accepted") := by
      intro ha
      unfold verify_invitation_token
      rw [hinv]
      simp only [if_pos ha]
    refine ⟨haccept, ?_, ?_, ?_, ?_⟩
    · intro ha hr
      unfold verify_invitation_token
      rw [hinv]
      dsimp only
      rw [ha]
      simp only [Option.isSome_none, Bool.false_eq_true, if_false, if_pos hr]
    · intro ha hr hexp
      unfold verify_invitation_token
      rw [hinv]
      dsimp only
      rw [ha, hr]
      simp only [Option.isSome_none, Bool.false_eq_true, if_false, if_pos hexp]
    · intro ha hr hexp
      unfold verify_invitation_token
      rw [hinv]
      dsimp only
      rw [ha, hr]
      simp only [Option.isSome_none, Bool.false_eq_true, if_false, if_neg hexp]
    · intro hterminal later i2
      unfold verify_invitation_token
      rw [hinv]
      dsimp only
      rcases hterminal with ha | hr
      · simp [if_pos ha]
      · by_cases ha : inv.acceptedAt.isSome
        · simp [if_pos ha]
        · simp [if_neg ha, if_pos hr]

/-- Witness for C3: the sample invitation, once marked accepted, fails
verification at a time far past its expiry with the already-accepted error,
not the expired error. -/
theorem verify_token_check_order_witness :
    verify_invitation_token
      { sampleDb with invitations := [{ inv1 with acceptedAt := some 5 }] } 2000 "tok1" =
      .error (.badRequest "Invitation already accepted") :=
  ((verify_token_check_order
      { sampleDb with invitations := [{ inv1 with acceptedAt := some 5 }] } 2000 "tok1").2
    { inv1 with acceptedAt := some 5 } rfl).1 rfl

/-- C1: on a non-deleted organizational account, a member with role owner or
admin is granted any required permission unconditionally; a member or viewer
is granted exactly when the explicit account permission meets the bar, or the
account default permission meets the bar (an insufficient explicit permission
falls through to the default), or the role is viewer and the required
permission is view; otherwise the resolver denies with the insufficient
permission error. -/
theorem account_access_resolution :
    ∀ (db : Db) (userId accountId : Nat) (required : String),
    (required = "full" ∨ required = "edit" ∨ required = "view") →
    ∀ (account : Account),
    db.accounts.find? (fun a => a.id == accountId && a.deletedAt == none) = some account →
    ∀ (orgId : Nat), account.organizationId = some orgId →
    ∀ (member : OrganizationMember),
    db.members.find? (fun m => m.organizationId == orgId && m.userId == userId) = some member →
    (member.role = "owner" ∨ member.role = "admin" ∨
     member.role = "member" ∨ member.role = "viewer") →
    ((member.role = "owner" ∨ member.role = "admin" →
        check_account_permission db userId accountId required = .ok true) ∧
     (member.role = "member" ∨ member.role = "viewer" →
       ((check_account_permission db userId accountId required = .ok true) ↔
         ((∃ ap, db.accountPermissions.find?
              (fun p => p.accountId == accountId && p.userId == userId) = some ap ∧
            PERMISSION_HIERARCHY required ≤ PERMISSION_HIERARCHY ap.permission) ∨
          PERMISSION_HIERARCHY required ≤ PERMISSION_HIERARCHY account.defaultPermission ∨
          (member.role = "viewer" ∧ required = "view"))) ∧
       (¬((∃ ap, db.accountPermissions.find?
              (fun p => p.accountId == accountId && p.userId == userId) = some ap ∧
            PERMISSION_HIERARCHY required ≤ PERMISSION_HIERARCHY ap.permission) ∨
          PERMISSION_HIERARCHY required ≤ PERMISSION_HIERARCHY account.defaultPermission ∨
          (member.role = "viewer" ∧ required = "view")) →
         check_account_permission db userId accountId required =
           .error (.forbidden ("Insufficient account permissions. Required: " ++ required))))) := by
  intro db userId accountId required hreq account hacc orgId horg member hmem hrole
  have hpos : 1 ≤ PERMISSION_HIERARCHY required := by
    rcases hreq with h | h | h <;> subst h <;> decide
  have hred : ∀ (out : Except ApiError Bool),
      (check_account_permission db userId accountId required = out) ↔
      ((if member.role == "owner" || member.role == "admin" then Except.ok true
        else if (match db.accountPermissions.find?
                    (fun p => p.accountId == accountId && p.userId == userId) with
                 | some accountPerm =>
                   decide (PERMISSION_HIERARCHY required ≤ PERMISSION_HIERARCHY accountPerm.permission)
                 | none => false) = true then Except.ok true
        else if account.defaultPermission ≠ "" ∧
                PERMISSION_HIERARCHY required ≤ PERMISSION_HIERARCHY account.defaultPermission then
          Except.ok true
        else if member.role == "viewer" && required == "view" then Except.ok true
        else Except.error (.forbidden ("Insufficient account permissions. Required: " ++ required)))
        = out) := by
    intro out
    unfold check_account_permission
    rw [hacc]
    dsimp only
    rw [horg]
    dsimp only
    rw [hmem]
  constructor
  · intro h
    rw [hred]
    have hcond : (member.role == "owner" || member.role == "admin") = true := by
      rcases h with h | h <;> rw [h] <;> decide
    simp only [hcond, if_true]
  · intro h
    have hcond : (member.role == "owner" || member.role == "admin") = false := by
      rcases h with h | h <;> rw [h] <;> decide
    by_cases hE : (match db.accountPermissions.find?
          (fun p => p.accountId == accountId && p.userId == userId) with
        | some accountPerm =>
          decide (PERMISSION_HIERARCHY required ≤ PERMISSION_HIERARCHY accountPerm.permission)
        | none => false) = true
    · have hexpl : ∃ ap, db.accountPermissions.find?
          (fun p => p.accountId == accountId && p.userId == userId) = some ap ∧
          PERMISSION_HIERARCHY required ≤ PERMISSION_HIERARCHY ap.permission := by
        cases hfind : db.accountPermissions.find?
            (fun p => p.accountId == accountId && p.userId == userId) with
        | none => rw [hfind] at hE; cases hE
        | some ap =>
          rw [hfind] at hE
          exact ⟨ap, rfl, of_decide_eq_true hE⟩
      constructor
      · rw [hred]
        simp only [hcond, Bool.false_eq_true, if_false, hE, if_true]
        exact iff_of_true (by trivial) (Or.inl hexpl)
      · intro hng
        exact absurd (Or.inl hexpl) hng
    · have hEf : (match db.accountPermissions.find?
            (fun p => p.accountId == accountId && p.userId == userId) with
          | some accountPerm =>
            decide (PERMISSION_HIERARCHY required ≤ PERMISSION_HIERARCHY accountPerm.permission)
          | none => false) = false := by
        revert hE
        cases (db.accountPermissions.find?
            (fun p => p.accountId == accountId && p.userId == userId)) with
        | none => intro _; rfl
        | some ap =>
          intro hE
          simp only [decide_eq_true_eq] at hE
          simp only [decide_eq_false_iff_not]
          exact hE
      have hnexpl : ¬ ∃ ap, db.accountPermissions.find?
          (fun p => p.accountId == accountId && p.userId == userId) = some ap ∧
          PERMISSION_HIERARCHY required ≤ PERMISSION_HIERARCHY ap.permission := by
        rintro ⟨ap, hfind, hle⟩
        rw [hfind] at hEf
        simp only [decide_eq_false_iff_not] at hEf
        exact hEf hle
      by_cases hD : account.defaultPermission ≠ "" ∧
          PERMISSION_HIERARCHY required ≤ PERMISSION_HIERARCHY account.defaultPermission
      · constructor
        · rw [hred]
          simp only [hcond, Bool.false_eq_true, if_false, hEf, if_pos hD]
          exact iff_of_true (by trivial) (Or.inr (Or.inl hD.2))
        · intro hng
          exact absurd (Or.inr (Or.inl hD.2)) hng
      · have hndef : ¬ PERMISSION_HIERARCHY required ≤
            PERMISSION_HIERARCHY account.defaultPermission := by
          intro hle
          apply hD
          refine ⟨?_, hle⟩
          intro hempty
          have hz : PERMISSION_HIERARCHY "" = 0 := by decide
          rw [hempty, hz] at hle
          omega
        by_cases hV : (member.role == "viewer" && required == "view") = true
        · have hVp : member.role = "viewer" ∧ required = "view" := by
            have hv2 := hV
            simp only [Bool.and_eq_true, beq_iff_eq] at hv2
            exact hv2
          constructor
          · rw [hred]
            simp only [hcond, Bool.false_eq_true, if_false, hEf, if_neg hD, hV, if_true]
            exact iff_of_true (by trivial) (Or.inr (Or.inr hVp))
          · intro hng
            exact absurd (Or.inr (Or.inr hVp)) hng
        · have hVf : (member.role == "viewer" && required == "view") = false := by
            revert hV
            cases hvv : (member.role == "viewer" && required == "view") with
            | true => intro hV; exact absurd rfl hV
            | false => intro _; rfl
          have hnV : ¬ (member.role = "viewer" ∧ required = "view") := by
            rintro ⟨h1, h2⟩
            rw [h1, h2] at hVf
            cases hVf
          have herr : check_account_permission db userId accountId required =
              .error (.forbidden ("Insufficient account permissions. Required: " ++ required)) := by
            rw [hred]
            simp only [hcond, Bool.false_eq_true, if_false, hEf, if_neg hD, hVf]
          constructor
          · rw [herr]
            exact iff_of_false (by simp) (by
              rintro (hx | hx | hx)
              · exact hnexpl hx
              · exact hndef hx
              · exact hnV hx)
          · intro _
            exact herr

/-- Witness for C1: on the sample database, the plain member holds an
explicit edit permission on account 100 whose default is view and is granted
edit, and the viewer is granted view. -/
theorem account_access_resolution_witness :
    check_account_permission sampleDb 12 100 "edit" = .ok true ∧
    check_account_permission sampleDb 13 100 "view" = .ok true :=
  ⟨((account_access_resolution sampleDb 12 100 "edit" (by simp) acc100 rfl 1 rfl
      mMember rfl (by simp [mMember])).2 (by simp [mMember])).1.mpr
    (Or.inl ⟨ap1, rfl, by decide⟩),
   ((account_access_resolution sampleDb 13 100 "view" (by simp) acc100 rfl 1 rfl
      mViewer rfl (by simp [mViewer])).2 (by simp [mViewer])).1.mpr
    (Or.inr (Or.inr ⟨rfl, rfl⟩))⟩

/-- C6: create_invitation fails when the proposed role is owner, when a user
with the invitee email is already a member, or when an active (pending,
unexpired) invitation exists for that organization and email; otherwise it
creates a pending invitation carrying the supplied fresh token (the random
URL-safe token from secrets.token_urlsafe(32), modelled as an input) and an
expiry 7 days from creation. -/
theorem create_invitation_spec :
    ∀ (db : Db) (now : Nat) (freshToken : String) (currentUser : UserRec)
      (orgId : Nat) (email role wrappedKey : String) (message : Option String)
      (auditFails : Bool) (manager : OrganizationMember) (org : Organization),
    (role = "owner" ∨ role = "admin" ∨ role = "member" ∨ role = "viewer") →
    check_org_admin db currentUser.id orgId = .ok manager →
    db.organizations.find? (fun o => o.id == orgId && o.deletedAt == none) = some org →
    ((role = "owner" →
       create_invitation db now freshToken currentUser orgId email role wrappedKey message auditFails =
         (.error (.validationError "Cannot invite as owner. Use transfer ownership instead."), db)) ∧
     (role ≠ "owner" →
       ((∃ invitee, db.users.find? (fun u => u.email == email) = some invitee ∧
           (db.members.find? (fun m =>
              m.organizationId == orgId && m.userId == invitee.id)).isSome) →
         create_invitation db now freshToken currentUser orgId email role wrappedKey message auditFails =
           (.error (.badRequest "User is already a member of this organization"), db)) ∧
       (¬(∃ invitee, db.users.find? (fun u => u.email == email) = some invitee ∧
           (db.members.find? (fun m =>
              m.organizationId == orgId && m.userId == invitee.id)).isSome) →
         ((db.invitations.find? (fun i =>
              i.organizationId == orgId && i.email == email &&
              i.acceptedAt == none && i.rejectedAt == none &&
              decide (now < i.expiresAt))).isSome →
           create_invitation db now freshToken currentUser orgId email role wrappedKey message auditFails =
             (.error (.badRequest "Active invitation already exists for this email"), db)) ∧
         ((db.invitations.find? (fun i =>
              i.organizationId == orgId && i.email == email &&
              i.acceptedAt == none && i.rejectedAt == none &&
              decide (now < i.expiresAt))) = none →
           create_invitation db now freshToken currentUser orgId email role wrappedKey message false =
             (.ok ⟨orgId, email, role, wrappedKey, currentUser.id, freshToken,
                   message, now + 7 * 24 * 60 * 60, now, none, none⟩,
              log_audit
                { db with invitations := db.invitations ++
                    [⟨orgId, email, role, wrappedKey, currentUser.id, freshToken,
                      message, now + 7 * 24 * 60 * 60, now, none, none⟩] }
                currentUser.id orgId "member_invited"))))) := by
  intro db now freshToken currentUser orgId email role wrappedKey message auditFails
    manager org hrole hadmin horg
  constructor
  · intro h
    subst h
    simp [create_invitation]
  · intro hne
    have hstep : ∀ (out : Except ApiError OrganizationInvitation × Db) (af : Bool),
        (create_invitation db now freshToken currentUser orgId email role wrappedKey message af
          = out) ↔
        ((if (match db.users.find? (fun (u : UserRec) => u.email == email) with
              | some invitee =>
                db.members.find? (fun (m : OrganizationMember) =>
                  m.organizationId == orgId && m.userId == invitee.id)
              | none => none).isSome then
            (Except.error (.badRequest "User is already a member of this organization"), db)
          else if (db.invitations.find? (fun (i : OrganizationInvitation) =>
              i.organizationId == orgId && i.email == email &&
              i.acceptedAt == none && i.rejectedAt == none &&
              decide (now < i.expiresAt))).isSome then
            (Except.error (.badRequest "Active invitation already exists for this email"), db)
          else
            let newInvitation : OrganizationInvitation :=
              ⟨orgId, email, role, wrappedKey, currentUser.id, freshToken,
               message, now + 7 * 24 * 60 * 60, now, none, none⟩
            let db1 := { db with invitations := db.invitations ++ [newInvitation] }
            if af then (Except.error (.internalError "audit write failed"), db1)
            else (Except.ok newInvitation, log_audit db1 currentUser.id orgId "member_invited"))
          = out) := by
      intro out af
      unfold create_invitation
      rw [if_neg (not_not_intro hrole), if_neg hne, hadmin]
      dsimp only
      rw [horg]
    refine ⟨?_, ?_⟩
    · rintro ⟨invitee, hu, hm⟩
      rw [hstep]
      simp [hu, hm]
    · intro hnex
      have hemf : (match db.users.find? (fun (u : UserRec) => u.email == email) with
          | some invitee =>
            db.members.find? (fun (m : OrganizationMember) =>
              m.organizationId == orgId && m.userId == invitee.id)
          | none => none).isSome = false := by
        cases hu : db.users.find? (fun (u : UserRec) => u.email == email) with
        | none => rfl
        | some invitee =>
          dsimp only
          cases hm : db.members.find? (fun (m : OrganizationMember) =>
              m.organizationId == orgId && m.userId == invitee.id) with
          | none => rfl
          | some w => exact absurd ⟨invitee, hu, by rw [hm]; rfl⟩ hnex
      refine ⟨?_, ?_⟩
      · intro hactive
        rw [hstep]
        simp only [hemf, Bool.false_eq_true, if_false, hactive, if_true]
      · intro hnactive
        rw [hstep]
        simp only [hemf, Bool.false_eq_true, if_false, hnactive, Option.isSome_none, if_false]

/-- Witness for C6: on the sample database the admin creates an invitation
for carol with role viewer; no membership and no active invitation exist for
that email, so the invitation is created pending with a 7-day expiry. -/
theorem create_invitation_spec_witness :
    create_invitation sampleDb 100 "tok9" ⟨11, "admin@example.com"⟩ 1
      "carol@example.com" "viewer" "rsa-carol" none false =
      (.ok ⟨1, "carol@example.com", "viewer", "rsa-carol", 11, "tok9",
            none, 100 + 7 * 24 * 60 * 60, 100, none, none⟩,
       log_audit
         { sampleDb with invitations := sampleDb.invitations ++
             [⟨1, "carol@example.com", "viewer", "rsa-carol", 11, "tok9",
               none, 100 + 7 * 24 * 60 * 60, 100, none, none⟩] }
         11 1 "member_invited") :=
  (((create_invitation_spec sampleDb 100 "tok9" ⟨11, "admin@example.com"⟩ 1
      "carol@example.com" "viewer" "rsa-carol" none false mAdmin org1
      (by simp) rfl rfl).2 (by decide)).2 (by decide)).2 rfl

/-- If verify_invitation_token succeeds, the token lookup found exactly the
returned invitation. -/
theorem verify_ok_find {db : Db} {now : Nat} {token : String}
    {invitation : OrganizationInvitation}
    (h : verify_invitation_token db now token = .ok invitation) :
    db.invitations.find? (fun i => i.token == token) = some invitation := by
  unfold verify_invitation_token at h
  cases hf : db.invitations.find? (fun i => i.token == token) with
  | none => rw [hf] at h; cases h
  | some i =>
    rw [hf] at h
    dsimp only at h
    by_cases ha : i.acceptedAt.isSome
    · rw [if_pos ha] at h; cases h
    · rw [if_neg ha] at h
      by_cases hr : i.rejectedAt.isSome
      · rw [if_pos hr] at h; cases h
      · rw [if_neg hr] at h
        by_cases he : i.expiresAt < now
        · rw [if_pos he] at h; cases h
        · rw [if_neg he] at h
          cases h
          rfl

/-- C7: accept_invitation, on a token that verifies, fails unless the
invitation email equals the authenticated accepter email, conflicts when the
accepter is already a member, and otherwise inserts exactly one membership
carrying the invitation role and the wrapped key supplied by the caller (not
the asymmetrically wrapped key stored on the invitation), marks the invitation
accepted, and deletes nothing. -/
theorem accept_invitation_spec :
    ∀ (db : Db) (now : Nat) (currentUser : UserRec) (token wrappedKey : String)
      (invitation : OrganizationInvitation),
    verify_invitation_token db now token = .ok invitation →
    ((invitation.email ≠ currentUser.email →
       accept_invitation db now currentUser token wrappedKey =
         (.error (.forbidden "This invitation is for a different email address"), db)) ∧
     (invitation.email = currentUser.email →
       ((db.members.find? (fun m =>
            m.organizationId == invitation.organizationId &&
            m.userId == currentUser.id)).isSome →
         accept_invitation db now currentUser token wrappedKey =
           (.error (.badRequest "You are already a member of this organization"), db)) ∧
       (db.members.find? (fun m =>
            m.organizationId == invitation.organizationId &&
            m.userId == currentUser.id) = none →
         accept_invitation db now currentUser token wrappedKey =
           (.ok { invitation with acceptedAt := some now },
            log_audit
              { db with
                members := db.members ++
                  [⟨invitation.organizationId, currentUser.id, invitation.role,
                    wrappedKey, some invitation.invitedBy⟩],
                invitations := db.invitations.map (fun i =>
                  if i.token == token then { i with acceptedAt := some now } else i) }
              currentUser.id invitation.organizationId "member_joined") ∧
         { invitation with acceptedAt := some now } ∈
           (accept_invitation db now currentUser token wrappedKey).2.invitations ∧
         (accept_invitation db now currentUser token wrappedKey).2.members.length =
           db.members.length + 1 ∧
         (accept_invitation db now currentUser token wrappedKey).2.invitations.length =
           db.invitations.length ∧
         (accept_invitation db now currentUser token wrappedKey).2.accounts = db.accounts ∧
         (accept_invitation db now currentUser token wrappedKey).2.organizations =
           db.organizations ∧
         (accept_invitation db now currentUser token wrappedKey).2.accountPermissions =
           db.accountPermissions ∧
         (accept_invitation db now currentUser token wrappedKey).2.users = db.users))) := by
  intro db now currentUser token wrappedKey invitation hver
  have hfind := verify_ok_find hver
  have htok : invitation.token = token := by
    have hp := List.find?_some hfind
    simpa using hp
  constructor
  · intro hne
    unfold accept_invitation
    rw [hver]
    dsimp only
    rw [if_pos hne]
  · intro heq
    constructor
    · intro hmem
      unfold accept_invitation
      rw [hver]
      dsimp only
      rw [if_neg (not_not_intro heq)]
      cases hm : db.members.find? (fun m =>
          m.organizationId == invitation.organizationId && m.userId == currentUser.id) with
      | none => rw [hm] at hmem; cases hmem
      | some w => rfl
    · intro hnomem
      have hrun : accept_invitation db now currentUser token wrappedKey =
          (.ok { invitation with acceptedAt := some now },
           log_audit
             { db with
               members := db.members ++
                 [⟨invitation.organizationId, currentUser.id, invitation.role,
                   wrappedKey, some invitation.invitedBy⟩],
               invitations := db.invitations.map (fun i =>
                 if i.token == token then { i with acceptedAt := some now } else i) }
             currentUser.id invitation.organizationId "member_joined") := by
        unfold accept_invitation
        rw [hver]
        dsimp only
        rw [if_neg (not_not_intro heq), hnomem]
      refine ⟨hrun, ?_, ?_, ?_, ?_, ?_, ?_, ?_⟩
      · rw [hrun]
        have hm := List.mem_of_find?_eq_some hfind
        refine List.mem_map.mpr ⟨invitation, hm, ?_⟩
        rw [if_pos (by simpa using htok)]
      · rw [hrun]
        simp [log_audit]
      · rw [hrun]
        simp [log_audit]
      · rw [hrun]; rfl
      · rw [hrun]; rfl
      · rw [hrun]; rfl
      · rw [hrun]; rfl

/-- Witness for C7: bob accepts the sample invitation at time 100 supplying a
re-wrapped key; one membership with role member and that key is created and
the invitation is marked accepted. -/
theorem accept_invitation_spec_witness :
    accept_invitation sampleDb 100 bobU "tok1" "master-wrapped-bob" =
      (.ok { inv1 with acceptedAt := some 100 },
       log_audit
         { sampleDb with
           members := sampleDb.members ++ [⟨1, 20, "member", "master-wrapped-bob", some 10⟩],
           invitations := sampleDb.invitations.map (fun i =>
             if i.token == "tok1" then { i with acceptedAt := some 100 } else i) }
         20 1 "member_joined") :=
  (((accept_invitation_spec sampleDb 100 bobU "tok1" "master-wrapped-bob" inv1 rfl).2
    rfl).2 rfl).1

/-- Overwriting the wrapped key of the first matching membership row does not
change which (organization, user) pairs have a membership row. -/
theorem find_isSome_updateFirstMemberKey (orgId userId : Nat) (key : String)
    (oid2 uid2 : Nat) (l : List OrganizationMember) :
    ((updateFirstMemberKey orgId userId key l).find? (fun m =>
        m.organizationId == oid2 && m.userId == uid2)).isSome =
    (l.find? (fun m => m.organizationId == oid2 && m.userId == uid2)).isSome := by
  induction l with
  | nil => rfl
  | cons m rest ih =>
    unfold updateFirstMemberKey
    by_cases h : (m.organizationId == orgId && m.userId == userId) = true
    · rw [if_pos h, List.find?_cons, List.find?_cons]
      dsimp only
      cases hpred : (m.organizationId == oid2 && m.userId == uid2) <;> rfl
    · rw [if_neg h, List.find?_cons, List.find?_cons]
      cases hpred : (m.organizationId == oid2 && m.userId == uid2) with
      | true => rfl
      | false => exact ih

/-- Overwriting the encrypted DEK of the first matching account row does not
change which account ids exist for this organization. -/
theorem find_isSome_updateFirstAccountDek (orgId accountId : Nat) (dek : String)
    (oid2 aid2 : Nat) (l : List Account) :
    ((updateFirstAccountDek orgId accountId dek l).find? (fun a =>
        a.id == aid2 && a.organizationId == some oid2 && a.deletedAt == none)).isSome =
    (l.find? (fun a =>
        a.id == aid2 && a.organizationId == some oid2 && a.deletedAt == none)).isSome := by
  induction l with
  | nil => rfl
  | cons a rest ih =>
    unfold updateFirstAccountDek
    by_cases h : (a.id == accountId && a.organizationId == some orgId &&
        a.deletedAt == none) = true
    · rw [if_pos h, List.find?_cons, List.find?_cons]
      dsimp only
      cases hpred : (a.id == aid2 && a.organizationId == some oid2 && a.deletedAt == none) <;>
        rfl
    · rw [if_neg h, List.find?_cons, List.find?_cons]
      cases hpred : (a.id == aid2 && a.organizationId == some oid2 && a.deletedAt == none) with
      | true => rfl
      | false => exact ih

/-- The member loop returns, above its accumulator, exactly the number of
supplied updates whose membership row exists in the starting list. -/
theorem rotateMembersLoop_count (orgId : Nat) (mks : List MemberKeyRotation) :
    ∀ (ms : List OrganizationMember) (n : Nat),
    (rotateMembersLoop orgId (ms, n) mks).2 =
      n + mks.countP (fun mk =>
        (ms.find? (fun m => m.organizationId == orgId && m.userId == mk.userId)).isSome) := by
  induction mks with
  | nil => intro ms n; simp [rotateMembersLoop]
  | cons mk rest ih =>
    intro ms n
    unfold rotateMembersLoop
    by_cases h : (ms.find? (fun m =>
        m.organizationId == orgId && m.userId == mk.userId)).isSome = true
    · rw [if_pos h, ih]
      have hstab : rest.countP (fun mk2 =>
          ((updateFirstMemberKey orgId mk.userId mk.wrappedOrgKey ms).find? (fun m =>
            m.organizationId == orgId && m.userId == mk2.userId)).isSome) =
          rest.countP (fun mk2 =>
            (ms.find? (fun m => m.organizationId == orgId && m.userId == mk2.userId)).isSome) :=
        List.countP_congr (fun mk2 _ => by
          rw [find_isSome_updateFirstMemberKey orgId mk.userId mk.wrappedOrgKey orgId mk2.userId ms])
      rw [hstab, List.countP_cons_of_pos
        (fun mk2 : MemberKeyRotation => (ms.find? (fun m =>
          m.organizationId == orgId && m.userId == mk2.userId)).isSome) rest (by exact h)]
      omega
    · rw [if_neg h, ih, List.countP_cons_of_neg
        (fun mk2 : MemberKeyRotation => (ms.find? (fun m =>
          m.organizationId == orgId && m.userId == mk2.userId)).isSome) rest (by exact h)]

/-- The account loop returns, above its accumulator, exactly the number of
supplied DEK updates whose account exists, belongs to the organization and is
not soft-deleted in the starting list. -/
theorem rotateAccountsLoop_count (orgId : Nat) (deks : List (Nat × String)) :
    ∀ (accs : List Account) (n : Nat),
    (rotateAccountsLoop orgId (accs, n) deks).2 =
      n + deks.countP (fun ad =>
        (accs.find? (fun a =>
          a.id == ad.1 && a.organizationId == some orgId && a.deletedAt == none)).isSome) := by
  induction deks with
  | nil => intro accs n; simp [rotateAccountsLoop]
  | cons ad rest ih =>
    intro accs n
    obtain ⟨accountId, dek⟩ := ad
    unfold rotateAccountsLoop
    by_cases h : (accs.find? (fun a =>
        a.id == accountId && a.organizationId == some orgId && a.deletedAt == none)).isSome = true
    · rw [if_pos h, ih]
      have hstab : rest.countP (fun ad2 =>
          ((updateFirstAccountDek orgId accountId dek accs).find? (fun a =>
            a.id == ad2.1 && a.organizationId == some orgId && a.deletedAt == none)).isSome) =
          rest.countP (fun ad2 =>
            (accs.find? (fun a =>
              a.id == ad2.1 && a.organizationId == some orgId && a.deletedAt == none)).isSome) :=
        List.countP_congr (fun ad2 _ => by
          rw [find_isSome_updateFirstAccountDek orgId accountId dek orgId ad2.1 accs])
      rw [hstab, List.countP_cons_of_pos
        (fun ad2 : Nat × String => (accs.find? (fun a =>
          a.id == ad2.1 && a.organizationId == some orgId && a.deletedAt == none)).isSome)
        rest (by exact h)]
      omega
    · rw [if_neg h, ih, List.countP_cons_of_neg
        (fun ad2 : Nat × String => (accs.find? (fun a =>
          a.id == ad2.1 && a.organizationId == some orgId && a.deletedAt == none)).isSome)
        rest (by exact h)]

/-- C4 counterexample: with the owner check passed, a failing audit insert
after the key-update commit makes the operation fail, yet the owner wrapped
key has already been overwritten: the rotation is not atomic with respect to
that failure, against the claim that a failed rotation changes no key. -/
theorem rotate_keys_atomicity_counterexample :
    (rotate_organization_keys sampleDb 10 1 [⟨10, "rotated-key"⟩] [] false true).1 =
      .error (.internalError "Key rotation failed") ∧
    (rotate_organization_keys sampleDb 10 1 [⟨10, "rotated-key"⟩] [] false true).2.members =
      [⟨1, 10, "owner", "rotated-key", some 10⟩, mAdmin, mMember, mViewer] ∧
    sampleDb.members = [mOwner, mAdmin, mMember, mViewer] ∧
    mOwner.wrappedOrgKey ≠ "rotated-key" :=
  ⟨rfl, rfl, rfl, by decide⟩

/-- C4 as amended: after the owner check succeeds, every supplied member key
update is applied exactly when the membership exists and every supplied DEK
update exactly when the account exists in this organization undeleted, misses
being skipped silently; the returned counts equal the number of applied
updates; a commit failure changes nothing and surfaces an error; an audit
failure after the commit surfaces an error while the applied updates
persist. -/
theorem rotate_keys_spec :
    ∀ (db : Db) (currentUserId orgId : Nat) (memberKeys : List MemberKeyRotation)
      (accountDeks : List (Nat × String)) (manager : OrganizationMember) (org : Organization),
    check_org_owner db currentUserId orgId = .ok manager →
    db.organizations.find? (fun o => o.id == orgId && o.deletedAt == none) = some org →
    ((∀ auditFails,
       rotate_organization_keys db currentUserId orgId memberKeys accountDeks true auditFails =
         (.error (.internalError "Key rotation failed"), db)) ∧
     (rotate_organization_keys db currentUserId orgId memberKeys accountDeks false false =
       (.ok (accountDeks.countP (fun ad =>
               (db.accounts.find? (fun a =>
                 a.id == ad.1 && a.organizationId == some orgId &&
                 a.deletedAt == none)).isSome),
             memberKeys.countP (fun mk =>
               (db.members.find? (fun m =>
                 m.organizationId == orgId && m.userId == mk.userId)).isSome)),
        log_audit
          { db with
            members := (rotateMembersLoop orgId (db.members, 0) memberKeys).1,
            accounts := (rotateAccountsLoop orgId (db.accounts, 0) accountDeks).1 }
          currentUserId orgId "keys_rotated")) ∧
     ((rotate_organization_keys db currentUserId orgId memberKeys accountDeks false true).1 =
        .error (.internalError "Key rotation failed") ∧
      (rotate_organization_keys db currentUserId orgId memberKeys accountDeks false true).2.members =
        (rotate_organization_keys db currentUserId orgId memberKeys accountDeks false false).2.members ∧
      (rotate_organization_keys db currentUserId orgId memberKeys accountDeks false true).2.accounts =
        (rotate_organization_keys db currentUserId orgId memberKeys accountDeks false false).2.accounts)) := by
  intro db currentUserId orgId memberKeys accountDeks manager org howner horg
  have hred : ∀ (cf af : Bool) (out : Except ApiError (Nat × Nat) × Db),
      (rotate_organization_keys db currentUserId orgId memberKeys accountDeks cf af = out) ↔
      ((if cf then (Except.error (ApiError.internalError "Key rotation failed"), db)
        else
          let db1 := { db with
            members := (rotateMembersLoop orgId (db.members, 0) memberKeys).1,
            accounts := (rotateAccountsLoop orgId (db.accounts, 0) accountDeks).1 }
          if af then (Except.error (ApiError.internalError "Key rotation failed"), db1)
          else (Except.ok ((rotateAccountsLoop orgId (db.accounts, 0) accountDeks).2,
                           (rotateMembersLoop orgId (db.members, 0) memberKeys).2),
                log_audit db1 currentUserId orgId "keys_rotated"))
        = out) := by
    intro cf af out
    unfold rotate_organization_keys
    rw [howner]
    dsimp only
    rw [horg]
  have heq : ∀ cf af,
      rotate_organization_keys db currentUserId orgId memberKeys accountDeks cf af =
      (if cf then (Except.error (ApiError.internalError "Key rotation failed"), db)
       else
         let db1 := { db with
           members := (rotateMembersLoop orgId (db.members, 0) memberKeys).1,
           accounts := (rotateAccountsLoop orgId (db.accounts, 0) accountDeks).1 }
         if af then (Except.error (ApiError.internalError "Key rotation failed"), db1)
         else (Except.ok ((rotateAccountsLoop orgId (db.accounts, 0) accountDeks).2,
                          (rotateMembersLoop orgId (db.members, 0) memberKeys).2),
               log_audit db1 currentUserId orgId "keys_rotated")) :=
    fun cf af => (hred cf af _).mpr rfl
  refine ⟨?_, ?_, ?_, ?_, ?_⟩
  · intro af
    rw [heq true af]
    rfl
  · rw [heq false false]
    dsimp only
    rw [rotateMembersLoop_count orgId memberKeys db.members 0,
        rotateAccountsLoop_count orgId accountDeks db.accounts 0]
    simp only [Nat.zero_add]
    rfl
  · rw [heq false true]
    rfl
  · rw [heq false true, heq false false]
    rfl
  · rw [heq false true, heq false false]
    rfl

/-- Witness for C4: on the sample database, one existing member (user 12) and
one nonexistent member (user 99), one existing account (100) and one
nonexistent account (999): the ghosts are skipped, the counts are (1, 1), and
the two real rows carry the new key material. -/
theorem rotate_keys_spec_witness :
    rotate_organization_keys sampleDb 10 1 [⟨12, "new-12"⟩, ⟨99, "ghost"⟩]
      [(100, "new-dek"), (999, "ghost-dek")] false false =
      (.ok (1, 1),
       log_audit
         { sampleDb with
           members := [mOwner, mAdmin, ⟨1, 12, "member", "new-12", some 10⟩, mViewer],
           accounts := [⟨100, 10, some 1, "view", some "new-dek", none⟩] }
         10 1 "keys_rotated") :=
  ((rotate_keys_spec sampleDb 10 1 [⟨12, "new-12"⟩, ⟨99, "ghost"⟩]
      [(100, "new-dek"), (999, "ghost-dek")] mOwner org1 rfl rfl).2.1).trans rfl

/-- A run of transfer_ownership with a failing audit insert is the successful
run with the audit shift applied: errors pass through, a success becomes a
server error whose state keeps the committed role swap and only misses the
audit row. -/
theorem transfer_audit_run (db : Db) (currentUserId orgId newOwnerId : Nat) :
    transfer_ownership db currentUserId orgId newOwnerId true =
      auditShift "audit write failed" db.auditLogs
        (transfer_ownership db currentUserId orgId newOwnerId false) := by
  unfold transfer_ownership
  repeat' split
  all_goals first | rfl | contradiction

/-- A run of create_invitation with a failing audit insert is the successful
run with the audit shift applied: errors pass through, a success becomes a
server error whose state keeps the committed invitation row and only misses
the audit row. -/
theorem create_invitation_audit_run (db : Db) (now : Nat) (freshToken : String)
    (currentUser : UserRec) (orgId : Nat) (email role wrappedKey : String)
    (message : Option String) :
    create_invitation db now freshToken currentUser orgId email role wrappedKey message true =
      auditShift "audit write failed" db.auditLogs
        (create_invitation db now freshToken currentUser orgId email role wrappedKey
          message false) := by
  unfold create_invitation
  try dsimp only
  repeat' split
  all_goals first | rfl | contradiction

/-- A run of rotate_organization_keys with a failing audit insert is the
successful run with the audit shift applied: errors pass through, a success
becomes a server error whose state keeps the committed key updates and only
misses the audit row. -/
theorem rotate_audit_run (db : Db) (currentUserId orgId : Nat)
    (memberKeys : List MemberKeyRotation) (accountDeks : List (Nat × String)) :
    rotate_organization_keys db currentUserId orgId memberKeys accountDeks false true =
      auditShift "Key rotation failed" db.auditLogs
        (rotate_organization_keys db currentUserId orgId memberKeys accountDeks false false) := by
  unfold rotate_organization_keys
  repeat' split
  all_goals first | rfl | contradiction

/-- C5 counterexample: ownership transfer on the sample database with a
failing audit insert: the call surfaces an error, yet the role swap is
committed (user 10 demoted to admin, user 11 promoted to owner), against the
claim that for role and ownership changes an audit failure means the mutation
does not commit. -/
theorem audit_policy_counterexample :
    (transfer_ownership sampleDb 10 1 11 true).1 =
      .error (.internalError "audit write failed") ∧
    (transfer_ownership sampleDb 10 1 11 true).2.members =
      [⟨1, 10, "admin", "wrapped-10", some 10⟩, ⟨1, 11, "owner", "wrapped-11", some 10⟩,
       mMember, mViewer] ∧
    sampleDb.members = [mOwner, mAdmin, mMember, mViewer] ∧
    mOwner.role = "owner" ∧ mAdmin.role = "admin" :=
  ⟨rfl, rfl, rfl, rfl, rfl⟩

/-- C5 as amended: all three call sites write the audit entry in its own
commit after the mutation commit, so an audit failure surfaces an error while
the already-committed mutation persists: the created invitation remains, the
rotated keys remain, and the transferred roles remain; in each case the
failing run differs from the successful run only by the missing audit row. -/
theorem audit_policy_spec :
    (∀ (db : Db) (now : Nat) (freshToken : String) (currentUser : UserRec)
       (orgId : Nat) (email role wrappedKey : String) (message : Option String)
       (inv : OrganizationInvitation) (db2 : Db),
      create_invitation db now freshToken currentUser orgId email role wrappedKey message false =
        (.ok inv, db2) →
      (create_invitation db now freshToken currentUser orgId email role wrappedKey message true).1 =
        .error (.internalError "audit write failed") ∧
      (create_invitation db now freshToken currentUser orgId email role wrappedKey message true).2.invitations =
        db2.invitations) ∧
    (∀ (db : Db) (currentUserId orgId : Nat) (memberKeys : List MemberKeyRotation)
       (accountDeks : List (Nat × String)) (res : Nat × Nat) (db2 : Db),
      rotate_organization_keys db currentUserId orgId memberKeys accountDeks false false =
        (.ok res, db2) →
      (rotate_organization_keys db currentUserId orgId memberKeys accountDeks false true).1 =
        .error (.internalError "Key rotation failed") ∧
      (rotate_organization_keys db currentUserId orgId memberKeys accountDeks false true).2.members =
        db2.members ∧
      (rotate_organization_keys db currentUserId orgId memberKeys accountDeks false true).2.accounts =
        db2.accounts) ∧
    (∀ (db : Db) (currentUserId orgId newOwnerId : Nat) (db2 : Db),
      transfer_ownership db currentUserId orgId newOwnerId false = (.ok (), db2) →
      (transfer_ownership db currentUserId orgId newOwnerId true).1 =
        .error (.internalError "audit write failed") ∧
      (transfer_ownership db currentUserId orgId newOwnerId true).2.members =
        db2.members) := by
  refine ⟨?_, ?_, ?_⟩
  · intro db now freshToken currentUser orgId email role wrappedKey message inv db2 h
    have hr := create_invitation_audit_run db now freshToken currentUser orgId email role
      wrappedKey message
    rw [h] at hr
    rw [hr]
    exact ⟨rfl, rfl⟩
  · intro db currentUserId orgId memberKeys accountDeks res db2 h
    have hr := rotate_audit_run db currentUserId orgId memberKeys accountDeks
    rw [h] at hr
    rw [hr]
    exact ⟨rfl, rfl, rfl⟩
  · intro db currentUserId orgId newOwnerId db2 h
    have hr := transfer_audit_run db currentUserId orgId newOwnerId
    rw [h] at hr
    rw [hr]
    exact ⟨rfl, rfl⟩

/-- Witness for C5: the successful transfer on the sample database commits the
role swap; the theorem applied to it shows the audit-failing run errors while
keeping those members. -/
theorem audit_policy_spec_witness :
    (transfer_ownership sampleDb 10 1 11 true).1 =
      .error (.internalError "audit write failed") ∧
    (transfer_ownership sampleDb 10 1 11 true).2.members =
      (log_audit
        { sampleDb with
          members := [⟨1, 10, "admin", "wrapped-10", some 10⟩,
                      ⟨1, 11, "owner", "wrapped-11", some 10⟩, mMember, mViewer] }
        10 1 "ownership_transferred").members :=
  audit_policy_spec.2.2 sampleDb 10 1 11
    (log_audit
      { sampleDb with
        members := [⟨1, 10, "admin", "wrapped-10", some 10⟩,
                    ⟨1, 11, "owner", "wrapped-11", some 10⟩, mMember, mViewer] }
      10 1 "ownership_transferred") rfl

/-- Counting over a mapped list equals counting the pointwise-transported
predicate over the original list. -/
theorem countP_map_eq {α : Type} (f : α → α) (p q : α → Bool) :
    ∀ l : List α, (∀ x ∈ l, p (f x) = q x) → (l.map f).countP p = l.countP q := by
  intro l
  induction l with
  | nil => intro _; rfl
  | cons a t ih =>
    intro h
    rw [List.map_cons, List.countP_cons, List.countP_cons,
      ih (fun x hx => h x (List.mem_cons_of_mem a hx)), h a (List.mem_cons_self a t)]

/-- A predicate pinned to one key value counts at most one row in a list with
pairwise-distinct keys. -/
theorem countP_le_one_key {α β : Type} (keyf : α → β) (p : α → Bool) (k : β)
    (hp : ∀ x, p x = true → keyf x = k) :
    ∀ l : List α, l.Pairwise (fun a b => ¬ keyf a = keyf b) → l.countP p ≤ 1 := by
  intro l
  induction l with
  | nil => intro _; simp [List.countP_nil]
  | cons a t ih =>
    intro hpw
    rw [List.pairwise_cons] at hpw
    obtain ⟨hhead, htail⟩ := hpw
    by_cases hpa : p a = true
    · rw [List.countP_cons_of_pos _ _ hpa]
      have hz : t.countP p = 0 := List.countP_eq_zero.mpr (fun b hb hpb =>
        hhead b hb ((hp a hpa).trans (hp b hpb).symm))
      omega
    · rw [List.countP_cons_of_neg _ _ hpa]
      exact ih htail

/-- Two distinct rows both satisfying the predicate force a count of at least
two. -/
theorem two_le_countP {α : Type} (p : α → Bool) :
    ∀ (l : List α) (x y : α), x ∈ l → y ∈ l → x ≠ y → p x = true → p y = true →
    2 ≤ l.countP p := by
  intro l
  induction l with
  | nil => intro x y hx; cases hx
  | cons a t ih =>
    intro x y hx hy hxy hpx hpy
    rcases List.mem_cons.mp hx with rfl | hx'
    · rcases List.mem_cons.mp hy with rfl | hy'
      · exact absurd rfl hxy
      · rw [List.countP_cons_of_pos _ _ hpx]
        have h1 : 0 < t.countP p := List.countP_pos_iff.mpr ⟨y, hy', hpy⟩
        omega
    · rcases List.mem_cons.mp hy with rfl | hy'
      · rw [List.countP_cons_of_pos _ _ hpy]
        have h1 : 0 < t.countP p := List.countP_pos_iff.mpr ⟨x, hx', hpx⟩
        omega
      · rw [List.countP_cons]
        have h2 := ih x y hx' hy' hxy hpx hpy
        omega

/-- In a list with pairwise-distinct keys, two rows sharing a key are the
same row. -/
theorem eq_of_key_unique {α β : Type} (keyf : α → β) :
    ∀ l : List α, l.Pairwise (fun a b => ¬ keyf a = keyf b) →
    ∀ x, x ∈ l → ∀ y, y ∈ l → keyf x = keyf y → x = y := by
  intro l
  induction l with
  | nil => intro _ x hx; cases hx
  | cons a t ih =>
    intro hpw x hx y hy hk
    rw [List.pairwise_cons] at hpw
    obtain ⟨hhead, htail⟩ := hpw
    rcases List.mem_cons.mp hx with rfl | hx'
    · rcases List.mem_cons.mp hy with rfl | hy'
      · rfl
      · exact absurd hk (hhead y hy')
    · rcases List.mem_cons.mp hy with rfl | hy'
      · exact absurd hk.symm (hhead x hx')
      · exact ih htail x hx' y hy' hk

/-- Erasing a row that the counted predicate rejects leaves the count
unchanged. -/
theorem countP_eraseP_of_none {α : Type} (p q : α → Bool) :
    ∀ l : List α, (∀ x ∈ l, q x = true → p x = false) →
    (l.eraseP q).countP p = l.countP p := by
  intro l
  induction l with
  | nil => intro _; rfl
  | cons a t ih =>
    intro h
    by_cases hqa : q a = true
    · rw [List.eraseP_cons_of_pos hqa]
      have hpa : p a = false := h a (List.mem_cons_self a t) hqa
      rw [List.countP_cons, hpa]
      simp
    · rw [List.eraseP_cons_of_neg (by simpa using hqa), List.countP_cons, List.countP_cons,
        ih (fun x hx hqx => h x (List.mem_cons_of_mem a hx) hqx)]

/-- Everything a successful check_org_permission certifies: the organization
row was found live, the membership row was found with the expected key, and
the role meets the requirement. -/
theorem check_org_permission_ok_elim {db : Db} {userId orgId : Nat}
    {req : Option String} {m : OrganizationMember}
    (h : check_org_permission db userId orgId req = .ok m) :
    (∃ org, db.organizations.find? (fun o => o.id == orgId && o.deletedAt == none) = some org ∧
       org ∈ db.organizations ∧ org.id = orgId) ∧
    db.members.find? (fun mm => mm.organizationId == orgId && mm.userId == userId) = some m ∧
    m ∈ db.members ∧ m.organizationId = orgId ∧ m.userId = userId ∧
    (∀ r, req = some r → ROLE_HIERARCHY r ≤ ROLE_HIERARCHY m.role) := by
  unfold check_org_permission at h
  cases horg : db.organizations.find? (fun o => o.id == orgId && o.deletedAt == none) with
  | none => rw [horg] at h; cases h
  | some org =>
    rw [horg] at h
    dsimp only at h
    cases hmem : db.members.find? (fun mm => mm.organizationId == orgId && mm.userId == userId) with
    | none => rw [hmem] at h; cases h
    | some mem =>
      rw [hmem] at h
      dsimp only at h
      have horgp := List.find?_some horg
      have horgm := List.mem_of_find?_eq_some horg
      simp only [Bool.and_eq_true, beq_iff_eq] at horgp
      have hmemp := List.find?_some hmem
      have hmemm := List.mem_of_find?_eq_some hmem
      simp only [Bool.and_eq_true, beq_iff_eq] at hmemp
      cases req with
      | none =>
        cases h
        exact ⟨⟨org, rfl, horgm, horgp.1⟩, rfl, hmemm, hmemp.1, hmemp.2,
          fun r hr => by cases hr⟩
      | some r =>
        dsimp only at h
        by_cases hlt : ROLE_HIERARCHY mem.role < ROLE_HIERARCHY r
        · rw [if_pos hlt] at h; cases h
        · rw [if_neg hlt] at h
          cases h
          exact ⟨⟨org, rfl, horgm, horgp.1⟩, rfl, hmemm, hmemp.1, hmemp.2,
            fun r2 hr2 => by cases hr2; omega⟩

/-- Only the role owner reaches hierarchy level at least the owner level. -/
theorem owner_of_hierarchy_ge {r : String}
    (h : ROLE_HIERARCHY "owner" ≤ ROLE_HIERARCHY r) : r = "owner" := by
  have h4 : ROLE_HIERARCHY "owner" = 4 := by decide
  rw [h4] at h
  unfold ROLE_HIERARCHY at h
  split_ifs at h with hw ha hm hv
  · exact hw
  · omega
  · omega
  · omega
  · omega

/-- The transfer row mutation never changes the organization id. -/
theorem transferRole_orgId (orgId a b : Nat) (m : OrganizationMember) :
    (transferRole orgId a b m).organizationId = m.organizationId := by
  unfold transferRole
  repeat' split
  all_goals rfl

/-- The transfer row mutation never changes the user id. -/
theorem transferRole_userId (orgId a b : Nat) (m : OrganizationMember) :
    (transferRole orgId a b m).userId = m.userId := by
  unfold transferRole
  repeat' split
  all_goals rfl

/-- The transfer row mutation never changes the membership key. -/
theorem transferRole_key (orgId a b : Nat) (m : OrganizationMember) :
    memberKeyOf (transferRole orgId a b m) = memberKeyOf m := by
  unfold memberKeyOf
  rw [transferRole_orgId, transferRole_userId]

/-- create_organization preserves the membership invariant: the fresh
organization gets exactly its creator as owner, old organizations are
untouched. -/
theorem DbInv_create (db : Db) (orgId uid : Nat) (name key : String) (h : DbInv db) :
    DbInv (create_organization db orgId uid name key) := by
  obtain ⟨h1, h2, h3⟩ := h
  unfold create_organization
  by_cases hc : db.organizations.any (fun o => o.id == orgId) = true
  · rw [if_pos hc]; exact ⟨h1, h2, h3⟩
  · rw [if_neg hc]
    have hfresh : ∀ o ∈ db.organizations, o.id ≠ orgId := by
      intro o ho heq
      exact hc (List.any_eq_true.mpr ⟨o, ho, by rw [heq]; exact beq_self_eq_true orgId⟩)
    refine ⟨?_, ?_, ?_⟩
    · intro o ho
      have ho2 : o ∈ db.organizations ++ [(⟨orgId, name, uid, none⟩ : Organization)] := ho
      show ownerCount
        (db.members ++ [(⟨orgId, uid, "owner", key, some uid⟩ : OrganizationMember)]) o.id = 1
      unfold ownerCount
      rw [List.countP_append]
      rcases List.mem_append.mp ho2 with ho' | ho'
      · have hno : (orgId == o.id) = false := by
          rw [beq_eq_false_iff_ne]
          exact fun hh => hfresh o ho' hh.symm
        rw [List.countP_cons, List.countP_nil]
        have hcnt := h1 o ho'
        unfold ownerCount at hcnt
        simp [hno, hcnt]
      · have hoeq : o = ⟨orgId, name, uid, none⟩ := List.mem_singleton.mp ho'
        subst hoeq
        have hz : db.members.countP
            (fun m => m.organizationId ==
              (⟨orgId, name, uid, none⟩ : Organization).id && m.role == "owner") = 0 := by
          apply List.countP_eq_zero.mpr
          intro m hm hpm
          simp only [Bool.and_eq_true, beq_iff_eq] at hpm
          obtain ⟨o2, ho2m, hid2⟩ := h3 m hm
          exact hfresh o2 ho2m (by rw [hid2, hpm.1])
        rw [hz, List.countP_cons, List.countP_nil]
        simp
    · show MembersUnique
        (db.members ++ [(⟨orgId, uid, "owner", key, some uid⟩ : OrganizationMember)])
      unfold MembersUnique
      rw [List.pairwise_append]
      refine ⟨h2, List.pairwise_singleton _ _, ?_⟩
      intro a ha b hb
      have hbeq : b = ⟨orgId, uid, "owner", key, some uid⟩ := List.mem_singleton.mp hb
      subst hbeq
      obtain ⟨o2, ho2, hid2⟩ := h3 a ha
      intro hkey
      unfold memberKeyOf at hkey
      have : a.organizationId = orgId := congrArg Prod.fst hkey
      exact hfresh o2 ho2 (by rw [hid2, this])
    · intro m hm
      have hm2 : m ∈ db.members ++ [(⟨orgId, uid, "owner", key, some uid⟩ :
        OrganizationMember)] := hm
      rcases List.mem_append.mp hm2 with hm' | hm'
      · obtain ⟨o, ho, hid⟩ := h3 m hm'
        exact ⟨o, List.mem_append_left _ ho, hid⟩
      · have hmeq : m = ⟨orgId, uid, "owner", key, some uid⟩ := List.mem_singleton.mp hm'
        subst hmeq
        exact ⟨⟨orgId, name, uid, none⟩,
          List.mem_append_right _ (List.mem_singleton_self _), rfl⟩

/-- transfer_ownership preserves the membership invariant: the old owner row
becomes admin and the designated member row becomes owner in the same commit,
every other organization is untouched. -/
theorem DbInv_transfer (db : Db) (actor orgId newOwnerId : Nat) (h : DbInv db) :
    DbInv (transfer_ownership db actor orgId newOwnerId false).2 := by
  obtain ⟨h1, h2, h3⟩ := h
  unfold transfer_ownership
  cases howner : check_org_owner db actor orgId with
  | error e => exact ⟨h1, h2, h3⟩
  | ok mgr =>
    dsimp only
    cases hfind : db.members.find?
        (fun m => m.organizationId == orgId && m.userId == newOwnerId) with
    | none => exact ⟨h1, h2, h3⟩
    | some nm =>
      dsimp only
      by_cases hself : (nm.userId == actor) = true
      · rw [if_pos hself]; exact ⟨h1, h2, h3⟩
      · rw [if_neg hself]
        have howner2 : check_org_permission db actor orgId (some "owner") = .ok mgr := howner
        obtain ⟨⟨org, horg, horgmem, horgid⟩, hmf, hmgrmem, hmo, hmu, hrole⟩ :=
          check_org_permission_ok_elim howner2
        have hmgrrole : mgr.role = "owner" := owner_of_hierarchy_ge (hrole "owner" rfl)
        have hnmp := List.find?_some hfind
        simp only [Bool.and_eq_true, beq_iff_eq] at hnmp
        have hnmm := List.mem_of_find?_eq_some hfind
        have hneq : nm.userId ≠ actor := by
          intro hh
          exact hself (by rw [hh]; exact beq_self_eq_true actor)
        have hact_ne_new : actor ≠ newOwnerId := fun hh => hneq (hnmp.2.trans hh.symm)
        refine ⟨?_, ?_, ?_⟩
        · intro o ho
          have ho' : o ∈ db.organizations := ho
          show ownerCount (db.members.map (transferRole orgId actor newOwnerId)) o.id = 1
          unfold ownerCount
          by_cases hoid : o.id = orgId
          · rw [hoid]
            rw [countP_map_eq (transferRole orgId actor newOwnerId)
                 (fun m => m.organizationId == orgId && m.role == "owner")
                 (fun m => m.organizationId == orgId && m.userId == newOwnerId)
                 db.members ?hpoint]
            case hpoint =>
              intro x hx
              by_cases hx1 : (x.organizationId == orgId && x.userId == actor) = true
              · have hfx : transferRole orgId actor newOwnerId x = { x with role := "admin" } := by
                  unfold transferRole
                  rw [if_pos hx1]
                rw [hfx]
                simp only [Bool.and_eq_true, beq_iff_eq] at hx1
                have hnu : (x.userId == newOwnerId) = false := by
                  rw [beq_eq_false_iff_ne, hx1.2]
                  exact hact_ne_new
                simp [hnu]
              · by_cases hx2 : (x.organizationId == orgId && x.userId == newOwnerId) = true
                · have hfx : transferRole orgId actor newOwnerId x = { x with role := "owner" } := by
                    unfold transferRole
                    rw [if_neg hx1, if_pos hx2]
                  rw [hfx]
                  simp only [Bool.and_eq_true, beq_iff_eq] at hx2
                  simp [hx2.1, hx2.2]
                · have hfx : transferRole orgId actor newOwnerId x = x := by
                    unfold transferRole
                    rw [if_neg hx1, if_neg hx2]
                  rw [hfx]
                  dsimp only
                  have hqx : (x.organizationId == orgId && x.userId == newOwnerId) = false :=
                    Bool.eq_false_iff.mpr hx2
                  rw [hqx]
                  cases hpx : (x.organizationId == orgId && x.role == "owner")
                  · rfl
                  · exfalso
                    simp only [Bool.and_eq_true, beq_iff_eq] at hpx
                    have hxney : x ≠ mgr := by
                      intro hh
                      apply hx1
                      rw [hh]
                      simp only [Bool.and_eq_true, beq_iff_eq]
                      exact ⟨hmo, hmu⟩
                    have h2c := two_le_countP
                      (fun m => m.organizationId == orgId && m.role == "owner")
                      db.members x mgr hx hmgrmem hxney
                      (by simp only [Bool.and_eq_true, beq_iff_eq]; exact ⟨hpx.1, hpx.2⟩)
                      (by simp only [Bool.and_eq_true, beq_iff_eq]; exact ⟨hmo, hmgrrole⟩)
                    have h1c := h1 org horgmem
                    unfold ownerCount at h1c
                    rw [horgid] at h1c
                    omega
            refine Nat.le_antisymm ?_ ?_
            · exact countP_le_one_key memberKeyOf _ (orgId, newOwnerId)
                (fun x hx => by
                  simp only [Bool.and_eq_true, beq_iff_eq] at hx
                  unfold memberKeyOf
                  rw [hx.1, hx.2]) db.members h2
            · exact List.countP_pos_iff.mpr ⟨nm, hnmm, by
                simp only [Bool.and_eq_true, beq_iff_eq]
                exact ⟨hnmp.1, hnmp.2⟩⟩
          · rw [countP_map_eq (transferRole orgId actor newOwnerId)
                 (fun m => m.organizationId == o.id && m.role == "owner")
                 (fun m => m.organizationId == o.id && m.role == "owner")
                 db.members ?hpoint2]
            · exact h1 o ho'
            case hpoint2 =>
              intro x hx
              by_cases hx1 : (x.organizationId == orgId && x.userId == actor) = true
              · have hfx : transferRole orgId actor newOwnerId x = { x with role := "admin" } := by
                  unfold transferRole
                  rw [if_pos hx1]
                rw [hfx]
                simp only [Bool.and_eq_true, beq_iff_eq] at hx1
                have hno : (x.organizationId == o.id) = false := by
                  rw [beq_eq_false_iff_ne, hx1.1]
                  exact fun hh => hoid hh.symm
                simp [hno]
              · by_cases hx2 : (x.organizationId == orgId && x.userId == newOwnerId) = true
                · have hfx : transferRole orgId actor newOwnerId x = { x with role := "owner" } := by
                    unfold transferRole
                    rw [if_neg hx1, if_pos hx2]
                  rw [hfx]
                  simp only [Bool.and_eq_true, beq_iff_eq] at hx2
                  have hno : (x.organizationId == o.id) = false := by
                    rw [beq_eq_false_iff_ne, hx2.1]
                    exact fun hh => hoid hh.symm
                  simp [hno]
                · have hfx : transferRole orgId actor newOwnerId x = x := by
                    unfold transferRole
                    rw [if_neg hx1, if_neg hx2]
                  rw [hfx]
        · show MembersUnique (db.members.map (transferRole orgId actor newOwnerId))
          unfold MembersUnique
          rw [List.pairwise_map]
          exact h2.imp (fun hab heq => hab
            (by rwa [transferRole_key, transferRole_key] at heq))
        · intro m hm
          have hm2 : m ∈ db.members.map (transferRole orgId actor newOwnerId) := hm
          obtain ⟨x, hx, rfl⟩ := List.mem_map.mp hm2
          obtain ⟨o, ho, hid⟩ := h3 x hx
          exact ⟨o, ho, by rw [transferRole_orgId]; exact hid⟩

/-- remove_member preserves the membership invariant: the erased row is never
an owner row, so every owner count is unchanged. -/
theorem DbInv_remove (db : Db) (actor orgId target : Nat) (h : DbInv db) :
    DbInv (remove_member db actor orgId target).2 := by
  obtain ⟨h1, h2, h3⟩ := h
  unfold remove_member
  cases hadmin : check_org_admin db actor orgId with
  | error e => exact ⟨h1, h2, h3⟩
  | ok manager =>
    dsimp only
    cases hfind : db.members.find?
        (fun m => m.organizationId == orgId && m.userId == target) with
    | none => exact ⟨h1, h2, h3⟩
    | some tgt =>
      dsimp only
      by_cases hro : (tgt.role == "owner") = true
      · rw [if_pos hro]; exact ⟨h1, h2, h3⟩
      · rw [if_neg hro]
        cases hcm : can_manage_member manager tgt with
        | error e => exact ⟨h1, h2, h3⟩
        | ok b =>
          have htp := List.find?_some hfind
          simp only [Bool.and_eq_true, beq_iff_eq] at htp
          have htm := List.mem_of_find?_eq_some hfind
          have hrole : tgt.role ≠ "owner" := by
            intro hh
            exact hro (by rw [hh]; exact beq_self_eq_true _)
          refine ⟨?_, ?_, ?_⟩
          · intro o ho
            have ho' : o ∈ db.organizations := ho
            show ownerCount (db.members.eraseP
              (fun m => m.organizationId == orgId && m.userId == target)) o.id = 1
            unfold ownerCount
            rw [countP_eraseP_of_none _ _ db.members ?hnone]
            · exact h1 o ho'
            case hnone =>
              intro x hx hqx
              have hxeq : x = tgt := eq_of_key_unique memberKeyOf db.members h2 x hx tgt htm
                (by
                  simp only [Bool.and_eq_true, beq_iff_eq] at hqx
                  unfold memberKeyOf
                  rw [hqx.1, hqx.2, htp.1, htp.2])
              subst hxeq
              have hb : (x.role == "owner") = false := by
                rw [beq_eq_false_iff_ne]
                exact hrole
              simp [hb]
          · show MembersUnique (db.members.eraseP
              (fun m => m.organizationId == orgId && m.userId == target))
            exact List.Pairwise.eraseP _ h2
          · intro m hm
            have hm2 : m ∈ db.members.eraseP
                (fun mm => mm.organizationId == orgId && mm.userId == target) := hm
            exact h3 m ((List.eraseP_sublist _).subset hm2)

/-- Every operation of the property test preserves the membership
invariant. -/
theorem DbInv_applyOp (db : Db) (op : OrgOp) (h : DbInv db) : DbInv (applyOp db op) := by
  cases op with
  | createOrg orgId creatorId name key => exact DbInv_create db orgId creatorId name key h
  | transferOwner orgId actorId newOwnerId => exact DbInv_transfer db actorId orgId newOwnerId h
  | removeMember orgId actorId targetUserId => exact DbInv_remove db actorId orgId targetUserId h

/-- Running any operation sequence preserves the membership invariant. -/
theorem DbInv_runOps : ∀ (ops : List OrgOp) (db : Db), DbInv db → DbInv (runOps ops db) := by
  intro ops
  induction ops with
  | nil => intro db h; exact h
  | cons op rest ih =>
    intro db h
    show DbInv (runOps rest (applyOp db op))
    exact ih (applyOp db op) (DbInv_applyOp db op h)

/-- A fresh deployment satisfies the membership invariant. -/
theorem DbInv_emptyDb : DbInv emptyDb :=
  ⟨fun o ho => absurd ho (List.not_mem_nil o), List.Pairwise.nil,
   fun m hm => absurd hm (List.not_mem_nil m)⟩

/-- C2: every organization has exactly one membership row with role owner at
all times, under any sequence of create-organization (creator becomes owner),
transfer-ownership (the current owner is demoted to admin and the designated
member promoted to owner in the same commit) and remove-member operations
(removing an owner row is always refused): from any state satisfying the
membership invariant, in particular from a fresh deployment, every reachable
state keeps exactly one owner row per organization. -/
theorem single_owner_invariant :
    (∀ (ops : List OrgOp) (db : Db), DbInv db →
      ∀ o ∈ (runOps ops db).organizations,
        ownerCount (runOps ops db).members o.id = 1) ∧
    (∀ (ops : List OrgOp), ∀ o ∈ (runOps ops emptyDb).organizations,
      ownerCount (runOps ops emptyDb).members o.id = 1) := by
  constructor
  · intro ops db h o ho
    exact (DbInv_runOps ops db h).1 o ho
  · intro ops o ho
    exact (DbInv_runOps ops emptyDb DbInv_emptyDb).1 o ho

/-- Witness for C2: on the sample database, transfer ownership of
organization 1 from user 10 to user 11, remove member 12, and create a second
organization owned by user 12: both organizations end with exactly one owner
row. -/
theorem single_owner_invariant_witness :
    DbInv sampleDb ∧
    ownerCount (runOps [OrgOp.transferOwner 1 10 11, OrgOp.removeMember 1 11 12,
        OrgOp.createOrg 2 12 "second" "wk2"] sampleDb).members org1.id = 1 ∧
    ownerCount (runOps [OrgOp.transferOwner 1 10 11, OrgOp.removeMember 1 11 12,
        OrgOp.createOrg 2 12 "second" "wk2"] sampleDb).members
      (⟨2, "second", 12, none⟩ : Organization).id = 1 :=
  ⟨by unfold DbInv MembersUnique; decide,
   single_owner_invariant.1 [OrgOp.transferOwner 1 10 11, OrgOp.removeMember 1 11 12,
     OrgOp.createOrg 2 12 "second" "wk2"] sampleDb
     (by unfold DbInv MembersUnique; decide) org1 (by decide),
   single_owner_invariant.1 [OrgOp.transferOwner 1 10 11, OrgOp.removeMember 1 11 12,
     OrgOp.createOrg 2 12 "second" "wk2"] sampleDb
     (by unfold DbInv MembersUnique; decide) ⟨2, "second", 12, none⟩
     (by decide)⟩

end Umbra
